import Mathlib

/-!
# Verification of the Genie dialogue loop and ThingTalk AST manipulation library

This file gives a shallow embedding, in Lean 4, of the parts of the Genie
toolkit that the verified claims are about:

* the `DialogueLoop` state machine (command analysis, error recovery,
  UI commands, agent replies, the outer loop's catch clause);
* the pure AST-manipulation functions of `languages/thingtalk/ast_manip.js`
  (`makeFilter`, `makeAndFilter`, `makeOrFilter`, `checkFilterUniqueness`,
  `hasUniqueFilter`, `addFilter`, `findFunctionNameStream`,
  `isSelfJoinStream`, `checkNotSelfJoinStream`, `mergeSchemas`);
* the list-proposal dialogue-act builders
  (`positiveListProposalReply`, `listProposalLearnMoreReply`);
* the `DatasetSplitter` writable stream (`_write`).

External collaborators (the ThingTalk type checker, the NLU/NLG network
clients, the policy, the execution agent, random number generation) are
modelled as explicit inputs: a function that awaits an external call takes
the call's outcome as an argument.  JavaScript `null`/`undefined` results
are modelled with `Option`, thrown exceptions with explicit outcome types.
-/

/-! ## ThingTalk types and values -/

/-- A ThingTalk type, as far as the manipulated code inspects it: a base
type named by a string (`String`, `Number`, entity types, ...) or an array
type.  `Type.Array(vtype)` in the source. -/
inductive TType where
  | base (name : String)
  | array (elem : TType)
deriving DecidableEq, Repr

/-- String rendering of a type, used to build the `param.name + '+' + vtype`
keys that `makeFilter` looks up in `opts.params.out`. -/
def TType.toStr : TType → String
  | .base name => name
  | .array elem => "Array(" ++ elem.toStr ++ ")"

/-- A ThingTalk value as inspected by the manipulation code: `name` is the
JS `.name` property (`some` for `VarRef`-like values, `none` i.e.
`undefined` otherwise), `vtype` is what `.getType()` returns. -/
structure Value where
  name : Option String
  vtype : TType
deriving DecidableEq, Repr

/-! ## Schemas (`Ast.ExpressionSignature`) -/

/-- One argument of a schema (`Ast.ArgumentDef`): its name, direction,
`unique` annotation and type. -/
structure ArgumentDef where
  name : String
  is_input : Bool
  unique : Bool
  ty : TType
deriving DecidableEq, Repr

/-- A function schema (`Ast.ExpressionSignature`): the argument list plus
the flags read and written by the manipulation functions.  The `no_filter`
flag is the "no further filtering" mark set by `addFilter` after a filter
on a `unique` argument. -/
structure ExpressionSignature where
  args : List ArgumentDef
  no_filter : Bool := false
  is_list : Bool := false
  is_monitorable : Bool := false
deriving DecidableEq, Repr

/-- Source `schema.getArgument(name)`: the first argument with the given name. -/
def ExpressionSignature.getArgument (s : ExpressionSignature) (n : String) :
    Option ArgumentDef :=
  s.args.find? (fun a => a.name == n)

/-- Source `schema.getArgument(name).unique`.  The source crashes when the
argument is missing; we totalize with `false`, which agrees with the
source on all well-formed inputs (filters only name schema arguments). -/
def ExpressionSignature.argIsUnique (s : ExpressionSignature) (n : String) : Bool :=
  match s.getArgument n with
  | some a => a.unique
  | none => false

/-! ## Boolean expressions (`Ast.BooleanExpression`) -/

/-- A ThingTalk boolean expression (filter).  The constructors mirror the
`isAtom` / `isAnd` / `isOr` / `isNot` / `isTrue` / `isFalse` /
`isExternal` / `isCompute` type tags dispatched on by the source; the
payloads of `external` and `compute` nodes are never inspected by the
functions modelled here, so they are left out. -/
inductive BooleanExpression where
  | atom (name op : String) (value : Value)
  | and (operands : List BooleanExpression)
  | or (operands : List BooleanExpression)
  | not (expr : BooleanExpression)
  | true_
  | false_
  | external
  | compute
deriving Repr

/-! ## Tables and streams (`Ast.Table`, `Ast.Stream`)

The constructors below cover the node kinds exercised by the claims.
`filtered` and `projection` are unary table-to-table operators
(`isUnaryTableToTableOp`), `monitor` is the unary table-to-stream operator
(`isUnaryTableToStreamOp`), `edgeFilter` and `edgeNew` are unary
stream-to-stream operators (`isUnaryStreamToStreamOp`). -/

/-- A ThingTalk table expression. -/
inductive Table where
  | invocation (kind channel : String) (schema : ExpressionSignature)
  | filtered (table : Table) (filt : BooleanExpression) (schema : ExpressionSignature)
  | projection (table : Table) (args : List String) (schema : ExpressionSignature)
  | join (lhs rhs : Table) (schema : ExpressionSignature)
deriving Repr

/-- Source `table.schema`. -/
def Table.schema : Table → ExpressionSignature
  | .invocation _ _ s => s
  | .filtered _ _ s => s
  | .projection _ _ s => s
  | .join _ _ s => s

/-- A ThingTalk stream expression (`Ast.Stream`; named `TTStream` because
`Stream` already exists in Lean's core library). -/
inductive TTStream where
  | timer
  | atTimer
  | monitor (table : Table)
  | edgeFilter (stream : TTStream) (filt : BooleanExpression)
  | edgeNew (stream : TTStream)
  | join (stream : TTStream) (table : Table)
deriving Repr

/-! ## `findFunctionNameTable` / `findFunctionNameStream` / self-join check -/

/-- Source `findFunctionNameTable(table)`: the list of `kind:channel` names of the
primitive invocations of a table, left to right. -/
def findFunctionNameTable : Table → List String
  | .invocation kind channel _ => [kind ++ ":" ++ channel]
  | .filtered t _ _ => findFunctionNameTable t
  | .projection t _ _ => findFunctionNameTable t
  | .join lhs rhs _ => findFunctionNameTable lhs ++ findFunctionNameTable rhs

/-- Source `findFunctionNameStream(stream)`: as above for streams; timers
contribute no names. -/
def findFunctionNameStream : TTStream → List String
  | .timer => []
  | .atTimer => []
  | .edgeFilter s _ => findFunctionNameStream s
  | .edgeNew s => findFunctionNameStream s
  | .monitor t => findFunctionNameTable t
  | .join s t => findFunctionNameStream s ++ findFunctionNameTable t

/-- The inner loop of `isSelfJoinStream`: after sorting, check whether two
adjacent entries are equal. -/
def hasAdjacentDup : List String → Bool
  | [] => false
  | [_] => false
  | a :: b :: rest => a == b || hasAdjacentDup (b :: rest)

/-- Source `isSelfJoinStream(stream)`: sort the collected function names and look
for two equal adjacent entries (JS `functions.sort()` sorts the string
array in place; we model it with insertion sort by `≤`). -/
def isSelfJoinStream (s : TTStream) : Bool :=
  let functions := findFunctionNameStream s
  if functions.length > 1 then
    hasAdjacentDup (functions.insertionSort (· ≤ ·))
  else
    false

/-- Source `checkNotSelfJoinStream(stream)`: `null` on a self-join, the stream
itself otherwise. -/
def checkNotSelfJoinStream (s : TTStream) : Option TTStream :=
  if isSelfJoinStream s then none else some s

/-! ## `makeFilter` and friends -/

/-- The `opts.params` object consulted by `makeFilter`: the set of
legal `name+type` output keys and the blacklist (sets modelled as lists
with membership). -/
structure ParamsSpec where
  out : List String
  blacklist : List String
deriving Repr

/-- The `opts.flags` consulted by `addFilter`. -/
structure GenFlags where
  multifilters : Bool := false
  turking : Bool := false
deriving Repr

/-- The `opts` object threaded through the template functions, with
the fields the modelled functions read. -/
structure GenOptions where
  params : ParamsSpec
  flags : GenFlags
deriving Repr

/-- Source `param` arguments are `Ast.Value.VarRef`s; only `.name` is read. -/
structure ParamRef where
  name : String
deriving DecidableEq, Repr

/-- Source `makeFilter(opts, param, op, value, negate)`: build an atom filter
over a named output argument, failing if the `name+type` pair is not a
declared output or is blacklisted. -/
def makeFilter (opts : GenOptions) (param : ParamRef) (op : String)
    (value : Value) (negate : Bool := false) : Option BooleanExpression :=
  let vtype := if op == "contains" then TType.array value.vtype else value.vtype
  if !(opts.params.out.contains (param.name ++ "+" ++ vtype.toStr)) then
    none
  else if opts.params.blacklist.contains (param.name ++ "+" ++ vtype.toStr) then
    none
  else
    let f := BooleanExpression.atom param.name op value
    if negate then some (BooleanExpression.not f) else some f

/-- Source `makeAndFilter(opts, param, op, values, negate)`: reject unless the
value list has exactly two elements with distinct `.name`s and both
operands pass `makeFilter`. -/
def makeAndFilter (opts : GenOptions) (param : ParamRef) (op : String)
    (values : List Value) (negate : Bool := false) : Option BooleanExpression :=
  match values with
  | [v0, v1] =>
    if v0.name = v1.name then none
    else
      match makeFilter opts param op v0, makeFilter opts param op v1 with
      | some f0, some f1 =>
        let f := BooleanExpression.and [f0, f1]
        if negate then some (BooleanExpression.not f) else some f
      | _, _ => none
  | _ => none

/-- Source `makeOrFilter(opts, param, op, values, negate)`: as `makeAndFilter`
but the operands are built with the `negate` flag and joined by `or`. -/
def makeOrFilter (opts : GenOptions) (param : ParamRef) (op : String)
    (values : List Value) (negate : Bool := false) : Option BooleanExpression :=
  match values with
  | [v0, v1] =>
    if v0.name = v1.name then none
    else
      match makeFilter opts param op v0 negate, makeFilter opts param op v1 negate with
      | some f0, some f1 =>
        let f := BooleanExpression.or [f0, f1]
        if negate then some (BooleanExpression.not f) else some f
      | _, _ => none
  | _ => none

/-! ## Filter iteration and uniqueness checks -/

/-- Source `iterateFilters(table)`: the `[schema, filter]` pairs of all filter
nodes of a table (invocations yield nothing, joins recurse on both sides,
other unary operators recurse on the inner table). -/
def iterateFilters : Table → List (ExpressionSignature × BooleanExpression)
  | .invocation _ _ _ => []
  | .filtered _ f s => [(s, f)]
  | .join lhs rhs _ => iterateFilters lhs ++ iterateFilters rhs
  | .projection t _ _ => iterateFilters t

mutual

/-- Source `iterateFields(filter)`: all atoms of a filter, descending through
`and` and `not` nodes. -/
def iterateFields : BooleanExpression → List BooleanExpression
  | .and ops => iterateFieldsList ops
  | .not e => iterateFields e
  | .atom n op v => [.atom n op v]
  | _ => []

/-- Source `iterateFields` mapped over an operand list. -/
def iterateFieldsList : List BooleanExpression → List BooleanExpression
  | [] => []
  | f :: rest => iterateFields f ++ iterateFieldsList rest

end

/-- The `.name` of an atom (only ever applied to `iterateFields` output,
which consists of atoms). -/
def atomName : BooleanExpression → String
  | .atom n _ _ => n
  | _ => ""

/-- Source `hasUniqueFilter(table)`: does some filter of the table contain an
atom on a `unique` argument of the corresponding schema? -/
def hasUniqueFilter (t : Table) : Bool :=
  (iterateFilters t).any fun sf =>
    (iterateFields sf.2).any fun atom => sf.1.argIsUnique (atomName atom)

mutual

/-- Source `checkFilterUniqueness(table, filter)`: does the new filter constrain
a `unique` argument of the table's schema?  `and`/`or` check whether some
operand does, `not` descends, `external`/`true`/`false`/`compute` never
do, and an atom looks up its argument's `unique` flag. -/
def checkFilterUniqueness (t : Table) : BooleanExpression → Bool
  | .and ops => checkFilterUniquenessList t ops
  | .or ops => checkFilterUniquenessList t ops
  | .external => false
  | .not e => checkFilterUniqueness t e
  | .true_ => false
  | .false_ => false
  | .compute => false
  | .atom n _ _ => t.schema.argIsUnique n

/-- Source `filter.operands.some((f) => checkFilterUniqueness(table, f))`. -/
def checkFilterUniquenessList (t : Table) : List BooleanExpression → Bool
  | [] => false
  | f :: rest => checkFilterUniqueness t f || checkFilterUniquenessList t rest

end

/-! ## `addFilter` -/

/-- Is the filter an atom, or the negation of an atom?  (`addFilter`'s
"don't add a new complex filter" test.) -/
def isAtomOrNotAtom : BooleanExpression → Bool
  | .atom _ _ _ => true
  | .not (.atom _ _ _) => true
  | _ => false

/-- One step of `addFilter`'s non-sensical-combination test: an existing
operand clashes with the new atom when both are atoms on the same argument
with the same operator, or one of them uses `==` or `in_array`. -/
def operandClashes (operand atom : BooleanExpression) : Bool :=
  match operand, atom with
  | .atom n1 o1 _, .atom n2 o2 _ =>
    n1 == n2 && (o1 == o2 || o1 == "==" || o2 == "==" ||
                 o1 == "in_array" || o2 == "in_array")
  | _, _ => false

/-- Source `addFilter(table, filter, opts, forceAdd)`: compose a new filter
onto a table.  Fails when the schema carries the `no_filter` mark; recurses
through projections; on an already-filtered table applies the turking
heuristic, the complex-filter guard, the two uniqueness guards and the
non-sensical-combination guard, then folds the filter into an `and`
(`optimize()` of the ThingTalk library is the identity on the shape we
track and is not modelled); on any other table wraps it in a filter node,
marking the cloned schema `no_filter` when the filter constrains a
`unique` argument. -/
def addFilter (table : Table) (filt : BooleanExpression) (opts : GenOptions)
    (forceAdd : Bool := false) : Option Table :=
  if table.schema.no_filter then none
  else
    match table with
    | .projection inner args s =>
      match addFilter inner filt opts forceAdd with
      | none => none
      | some added => some (.projection added args s)
    | .filtered inner existing s =>
      if !forceAdd && !opts.flags.multifilters && opts.flags.turking then none
      else if !forceAdd && !isAtomOrNotAtom filt then none
      else if checkFilterUniqueness (.filtered inner existing s) filt then none
      else if hasUniqueFilter (.filtered inner existing s) then none
      else
        let atom := match filt with | .not e => e | f => f
        let operands := match existing with | .and ops => ops | f => [f]
        if operands.any (fun operand => operandClashes operand atom) then none
        else some (.filtered inner (BooleanExpression.and [existing, filt]) s)
    | .invocation kind channel s =>
      let s' := if checkFilterUniqueness (.invocation kind channel s) filt then
        { s with no_filter := true } else s
      some (.filtered (.invocation kind channel s) filt s')
    | .join lhs rhs s =>
      let s' := if checkFilterUniqueness (.join lhs rhs s) filt then
        { s with no_filter := true } else s
      some (.filtered (.join lhs rhs s) filt s')

/-! ## `mergeSchemas` -/

/-- The first loop of `mergeSchemas`: walk the right-hand schema's
arguments, skipping the passed-through join argument, accumulating
`(newArgNames, newArgs)`. -/
def mergeRhsArgs (passign : String) :
    List String × List ArgumentDef → List ArgumentDef → List String × List ArgumentDef
  | acc, [] => acc
  | acc, arg :: rest =>
    if arg.name = passign then mergeRhsArgs passign acc rest
    else mergeRhsArgs passign (acc.1 ++ [arg.name], acc.2 ++ [arg]) rest

/-- The second loop of `mergeSchemas`: walk the left-hand schema's
arguments, skipping names already taken. -/
def mergeLhsArgs :
    List String × List ArgumentDef → List ArgumentDef → List String × List ArgumentDef
  | acc, [] => acc
  | acc, arg :: rest =>
    if acc.1.contains arg.name then mergeLhsArgs acc rest
    else mergeLhsArgs (acc.1 ++ [arg.name], acc.2 ++ [arg]) rest

/-- Source `mergeSchemas(functionType, lhsSchema, rhsSchema, passign)`: the schema
of a parameter-passing join.  Name conflicts are won by the right-hand
(second) primitive; the passed-through argument `passign` is dropped from
the right-hand contribution.  (The `functionType` string is stored in the
resulting `Ast.ExpressionSignature` but never read by the modelled code,
so our schema record does not keep it.) -/
def mergeSchemas (_functionType : String) (lhsSchema rhsSchema : ExpressionSignature)
    (passign : String) : ExpressionSignature :=
  let acc1 := mergeRhsArgs passign ([], []) rhsSchema.args
  let acc2 := mergeLhsArgs acc1 lhsSchema.args
  { args := acc2.2,
    is_list := lhsSchema.is_list || rhsSchema.is_list,
    is_monitorable := lhsSchema.is_monitorable && rhsSchema.is_monitorable }

/-! ## The dialogue loop (`DialogueLoop`)

The loop's mutable fields that the claims are about are gathered in
`LoopState`.  Awaited external calls (NLU, NLG, policy, executor) are
modelled by passing their outcome in as an argument; a thrown JS exception
is modelled by an explicit `JsError` value in the result. -/

/-- The `.code` property of a JS exception: a string, a number, or absent. -/
inductive ErrCode where
  | str (s : String)
  | num (n : Int)
  | noCode
deriving DecidableEq, Repr

/-- A JS exception, as far as the loop inspects it. -/
structure JsError where
  code : ErrCode
deriving DecidableEq, Repr

/-- Modelled from the spec: `CancellationError` (module `./errors`, whose
source is not included) is "the sole mechanism used to unwind a turn
early"; the loop's catch clause recognizes it by `e.code === 'ECANCELLED'`,
so the error it constructs carries that code. -/
def cancellationError : JsError := ⟨.str "ECANCELLED"⟩

/-- The categories of expected values (`ValueCategory`, module
`./value-category`, interface only; the claims depend only on
"some category" versus `null`). -/
inductive ValueCategory where
  | command
  | yesNo
  | multipleChoice
  | rawString
  | location
  | other
deriving DecidableEq, Repr

/-- A ThingTalk dialogue state as far as the loop inspects it: its
dialogue act tag, its pretty-printed form, and the icon
`getProgramIcon` extracts from it. -/
structure DState where
  dialogueAct : String
  pretty : String
  progIcon : Option String
deriving DecidableEq, Repr

/-- The loop's mutable fields involved in the claims: `_dialogueState`,
`icon`, `expecting`, `_stopped`. -/
structure LoopState where
  dialogueState : Option DState
  icon : Option String
  expecting : Option ValueCategory
  stopped : Bool
deriving DecidableEq, Repr

/-- Source `TERMINAL_STATES`. -/
def TERMINAL_STATES : List String := ["sys_end", "sys_action_success"]

/-- The fixed apology for `EHOSTUNREACH`/`ETIMEDOUT` NLU transport errors. -/
def nluUnreachableApology : String :=
  "Sorry, I cannot contact the Almond service. Please check your Internet connection and try again later."

/-- The fixed apology for 404/5xx NLU server errors. -/
def nluServerApology : String :=
  "Sorry, there seems to be a problem with the Almond service at the moment. Please try again later."

/-- The generic apology template of `_loop`'s catch clause for a user-input
item (the `${error}` placeholder is interpolated by the external
`string-interp` library). -/
def genericUserApology : String :=
  "Sorry, I had an error processing your command: ${error}."

/-- The generic apology template of `_loop`'s catch clause for a
notification item. -/
def genericOtherApology : String :=
  "Sorry, that did not work: ${error}."

/-- The catch clause of `_analyzeCommand` around the `sendUtterance` NLU
call: given the thrown error, either reply with a fixed apology and raise
a `CancellationError` (`Sum.inl (apology, raised)`), or rethrow the error
(`Sum.inr`). -/
def handleNluError (e : JsError) : (String × JsError) ⊕ JsError :=
  if e.code = .str "EHOSTUNREACH" ∨ e.code = .str "ETIMEDOUT" then
    Sum.inl (nluUnreachableApology, cancellationError)
  else
    match e.code with
    | .num n => if n = 404 ∨ n ≥ 500 then Sum.inl (nluServerApology, cancellationError)
                else Sum.inr e
    | _ => Sum.inr e

/-- Does `handleNluError` recover the error (transport error), rather than
rethrow it? -/
def isTransportError (e : JsError) : Bool :=
  e.code == .str "EHOSTUNREACH" || e.code == .str "ETIMEDOUT" ||
  (match e.code with
   | .num n => n == 404 || n ≥ 500
   | _ => false)

/-- The catch clause of `_loop`: a `CancellationError` resets the icon,
the dialogue state and (via `setExpected(null)`) the expected category and
produces no reply; any other error leaves the state alone and replies with
the generic apology for the item kind.  Returns the new state and the
replies the clause sends. -/
def loopCatchError (st : LoopState) (isUserInput : Bool) (e : JsError) :
    LoopState × List String :=
  if e.code = .str "ECANCELLED" then
    ({ st with icon := none, dialogueState := none, expecting := none }, [])
  else
    (st, [if isUserInput then genericUserApology else genericOtherApology])

/-- One pass of the `while (!this._stopped)` body after the queue item has
been handled: `turnResult = none` means the handler returned normally,
`turnResult = some e` means it threw `e` and the catch clause runs.
Returns the new state, the replies sent by the catch clause, and whether
the loop proceeds to await the next queue item. -/
def loopIteration (st : LoopState) (isUserInput : Bool) (turnResult : Option JsError) :
    LoopState × List String × Bool :=
  let handled := match turnResult with
    | none => (st, [])
    | some e => loopCatchError st isUserInput e
  (handled.1, handled.2, !handled.1.stopped)

/-! ## Command analysis (`_analyzeCommand`) -/

/-- The types of `Ast.SpecialControlIntent` the loop distinguishes. -/
inductive SpecialIntent where
  | stop
  | nevermind
  | wakeup
  | debug
  | failed
  | yes
  | no
deriving DecidableEq, Repr

/-- A parsed ThingTalk input (`Ast.Input`) as far as command analysis
inspects it: a control command with a special intent, or anything else
(programs, answers, choices). -/
inductive TTInput where
  | special (t : SpecialIntent)
  | other
deriving DecidableEq, Repr

/-- Source `CommandAnalysisType`. -/
inductive CommandAnalysisType where
  | STOP
  | NEVERMIND
  | WAKEUP
  | DEBUG
  | IN_DOMAIN_COMMAND
  | OUT_OF_DOMAIN_COMMAND
  | PARSE_FAILURE
  | IGNORE
deriving DecidableEq, Repr

/-- Source `_getSpecialThingTalkType(input)`: special control intents map to the
corresponding classification, `failed` to `PARSE_FAILURE`, anything else
is automatically in-domain. -/
def getSpecialThingTalkType : TTInput → CommandAnalysisType
  | .special .stop => .STOP
  | .special .nevermind => .NEVERMIND
  | .special .wakeup => .WAKEUP
  | .special .debug => .DEBUG
  | .special .failed => .PARSE_FAILURE
  | _ => .IN_DOMAIN_COMMAND

/-- A candidate score as the loop compares it: the `'Infinity'` sentinel
string sent by the NLU server for exact matches, or an ordinary number. -/
inductive Score where
  | infinite
  | finite (n : Int)
deriving DecidableEq, Repr

/-- A raw NLU candidate after the external `parsePrediction` call:
`parseResult = some p` when the code sequence parsed and typechecked to
`p`, `none` when `parsePrediction` threw (a parse/type error). -/
structure RawCandidate where
  parseResult : Option TTInput
  score : Score
deriving DecidableEq, Repr

/-- A candidate of `_analyzeCommand`'s list: the parsed input (a parse
failure is replaced by the synthetic `$failed` control command) and the
score. -/
structure Candidate where
  parsed : TTInput
  score : Score
deriving DecidableEq, Repr

/-- The body of `_analyzeCommand`'s `map`: replace a failed parse by the
`$failed` special control command, keeping the score. -/
def mkCandidate (raw : RawCandidate) : Candidate :=
  match raw.parseResult with
  | some p => ⟨p, raw.score⟩
  | none => ⟨.special .failed, raw.score⟩

/-- The synthetic `$failed` candidate pushed unconditionally at the end of
the list, with score 0. -/
def syntheticFailedCandidate : Candidate := ⟨.special .failed, .finite 0⟩

/-- The candidate list built by `_analyzeCommand` for a natural-language
command: the mapped NLU candidates followed by the synthetic `$failed`
fallback. -/
def buildCandidates (raws : List RawCandidate) : List Candidate :=
  raws.map mkCandidate ++ [syntheticFailedCandidate]

/-- The skip-loop condition: a parse-failure candidate carrying the
`'Infinity'` sentinel score (an exact match for a skill not available to
this user). -/
def isSkippableCandidate (c : Candidate) : Bool :=
  getSpecialThingTalkType c.parsed == .PARSE_FAILURE && c.score == .infinite

/-- The `while (i < candidates.length-1 && ...)` skip loop: advance past
leading skippable candidates, stopping at the last candidate
unconditionally.  (The `[]` case is unreachable on the lists
`buildCandidates` produces, which are never empty.) -/
def selectCandidate : List Candidate → Candidate
  | [] => syntheticFailedCandidate
  | [c] => c
  | c :: c2 :: rest =>
    if isSkippableCandidate c then selectCandidate (c2 :: rest) else c

/-- The candidate `_analyzeCommand` settles on for a natural-language
command whose NLU call returned the given raw candidates. -/
def analyzedChoice (raws : List RawCandidate) : Candidate :=
  selectCandidate (buildCandidates raws)

/-! ## UI commands (`_handleUICommand`) and agent replies (`_doAgentReply`) -/

/-- The four special command classifications `_handleUICommand` accepts. -/
inductive UICommandType where
  | STOP
  | NEVERMIND
  | DEBUG
  | WAKEUP
deriving DecidableEq, Repr

/-- Source `_handleUICommand(type)`: the replies it sends and the error it throws
(if any).  `STOP` cancels without a message; `NEVERMIND` apologizes and
cancels; `DEBUG` prints the current state; `WAKEUP` shows the welcome
message when the state is `null` (the welcome replies produced by the
external policy via `_showWelcome` are passed in) and does nothing
otherwise. -/
def handleUICommand (st : LoopState) (welcomeReplies : List String) :
    UICommandType → List String × Option JsError
  | .STOP => ([], some cancellationError)
  | .NEVERMIND => (["Sorry I couldn\u0027t help on that."], some cancellationError)
  | .DEBUG =>
    (["Current State:\n" ++ (match st.dialogueState with
       | some d => d.pretty
       | none => "null")], none)
  | .WAKEUP =>
    if st.dialogueState = none then (welcomeReplies, none) else ([], none)

/-- The tuple an `Option` of which the policy's `chooseAction` resolves
to: the new dialogue state, the expected category, the utterance and the
number of results to display. -/
structure PolicyResult where
  state : DState
  expect : Option ValueCategory
  utterance : String
  numResults : Nat
deriving DecidableEq, Repr

/-- The outcome of `_doAgentReply`. -/
structure AgentReplyOutcome where
  newLoop : LoopState
  replies : List String
  thrown : Option JsError
  returned : Option (Option ValueCategory × Nat)
deriving DecidableEq, Repr

/-- The message `fail()` sends when called with no argument, which depends
on whether a value is currently expected. -/
def failMessage (expecting : Option ValueCategory) : String :=
  if expecting = none then "Sorry, I did not understand that. Can you rephrase it?"
  else "Sorry, I did not understand that."

/-- Source `_doAgentReply()` along the non-neural-NLG branch, with the policy's
`chooseAction` outcome passed in.  A `null` policy result runs `fail()`
(apology + cancellation).  Otherwise the dialogue state and icon are
updated, the utterance is sent, and if no value is expected and the new
dialogue act names a terminal state a `CancellationError` is raised
instead of returning `[expect, numResults]`. -/
def doAgentReply (st : LoopState) (policyResult : Option PolicyResult) :
    AgentReplyOutcome :=
  match policyResult with
  | none =>
    { newLoop := st
      replies := [failMessage st.expecting]
      thrown := some cancellationError
      returned := none }
  | some pr =>
    let st' := { st with dialogueState := some pr.state, icon := pr.state.progIcon }
    if pr.expect = none ∧ pr.state.dialogueAct ∈ TERMINAL_STATES then
      { newLoop := st'
        replies := [pr.utterance]
        thrown := some cancellationError
        returned := none }
    else
      { newLoop := st'
        replies := [pr.utterance]
        thrown := none
        returned := some (pr.expect, pr.numResults) }

/-! ## List-proposal dialogue-act builders
(`dialogue_acts/list-proposal.js`)

The helpers these builders call live in `state_manip.js`,
`refinement-helpers.js` and `common.js`, which are not part of the sources
under verification; they are taken as function parameters.  The builders
themselves are pure: they either return `false`, return `null`, or return
a freshly built new state — the input context is never modified. -/

/-- The JS return values `false` / `null` / a new dialogue state. -/
inductive ReplyResult (State : Type) where
  | rfalse
  | rnull
  | newState (s : State)
deriving DecidableEq, Repr

/-- One result of the current result list; the builders only read
`result.value.id`. -/
structure LPResult where
  id : Value
deriving DecidableEq, Repr

/-- The parts of the dialogue context a list-proposal reply reads: the
proposal triple `[results, info, actionProposal]` stored in `ctx.aux`
(the `info` component is destructured but never used by the modelled
functions) and the current table `ctx.current.stmt.table`. -/
structure ListProposalCtx (Action : Type) where
  results : List LPResult
  actionProposal : Option Action
  currentTable : Table

/-- Source `positiveListProposalReply(ctx, [name, acceptedAction,
mustHaveAction])`.  The external helpers are parameters: `isSameFunction`
(schema comparison), `findChainParam`, `addActionParam` (called with
dialogue act `'execute'` and confidence `'accepted'`), `queryRefinement`
(called with the `And`-combining refine function) and `addQuery`. -/
def positiveListProposalReply {State Action : Type}
    (isSameFunction : Action → Action → Bool)
    (findChainParam : LPResult → Action → Option String)
    (addActionParam : String → Action → String → Value → String → State)
    (queryRefinement : Table → BooleanExpression →
      (BooleanExpression → BooleanExpression → BooleanExpression) → Option Table)
    (addQuery : String → Table → String → State)
    (ctx : ListProposalCtx Action)
    (name : Value) (acceptedAction : Option Action) (mustHaveAction : Bool) :
    ReplyResult State :=
  if !(ctx.results.any fun r => r.id == name) then .rfalse
  else
    let accepted := match acceptedAction with
      | none => ctx.actionProposal
      | some a => some a
    match accepted with
    | none =>
      if mustHaveAction then .rnull
      else
        let namefilter := BooleanExpression.atom "id" "==" name
        match queryRefinement ctx.currentTable namefilter
            (fun one two => BooleanExpression.and [one, two]) with
        | none => .rnull
        | some newTable => .newState (addQuery "execute" newTable "accepted")
    | some act =>
      if (match ctx.actionProposal with
          | some ap => !isSameFunction ap act
          | none => false) then .rnull
      else
        match ctx.results.head? with
        | none => .rfalse
        | some r0 =>
          match findChainParam r0 act with
          | none => .rnull
          | some chainParam =>
            .newState (addActionParam "execute" act chainParam name "accepted")

/-- Source `listProposalLearnMoreReply(ctx, name)`: on a name present in the
results, refine the current table with an `id ==` filter; otherwise
return `false`. -/
def listProposalLearnMoreReply {State Action : Type}
    (queryRefinement : Table → BooleanExpression →
      (BooleanExpression → BooleanExpression → BooleanExpression) → Option Table)
    (addQuery : String → Table → String → State)
    (ctx : ListProposalCtx Action) (name : Value) :
    ReplyResult State :=
  if !(ctx.results.any fun r => r.id == name) then .rfalse
  else
    let namefilter := BooleanExpression.atom "id" "==" name
    match queryRefinement ctx.currentTable namefilter
        (fun one two => BooleanExpression.and [one, two]) with
    | none => .rnull
    | some newTable => .newState (addQuery "execute" newTable "accepted")

/-! ## `DatasetSplitter` -/

/-- Source `filterForDevices(set, code)`: every `@`-token of the code names a
device kind in the set. -/
def filterForDevices (set : List String) (code : String) : Bool :=
  (code.splitOn " ").all fun token =>
    if token.startsWith "@" then
      let split := (token.drop 1).splitOn "."
      let kind := String.intercalate "." (split.take (split.length - 1))
      set.contains kind
    else
      true

/-- The flags of a dataset row the splitter reads. -/
structure RowFlags where
  synthetic : Bool := false
  augmented : Bool := false
deriving DecidableEq, Repr

/-- A dataset row. -/
structure Row where
  id : String
  preprocessed : String
  target_code : String
  flags : RowFlags
deriving DecidableEq, Repr

/-- The splitter's mutable state: the split keys recorded in the dev/test
set and in the train set. -/
structure SplitterState where
  devtestset : List String
  trainset : List String
deriving DecidableEq, Repr

/-- Where a row is written: the train stream, the eval stream, the test
stream, or nowhere (dropped). -/
inductive RowDest where
  | train
  | evalOut
  | testOut
  | dropped
deriving DecidableEq, Repr

/-- The splitter's configuration: the device set, whether a test stream
was supplied, and the split strategy (a function of `(id, preprocessed,
target_code)`; the `id` strategy returns `undefined` = `none`; the other
strategies call the external requoting module). -/
structure SplitterConfig where
  forDevices : List String
  hasTest : Bool
  splitStrategy : String → String → String → Option String

/-- Source `splitKey !== undefined && set.has(splitKey)`. -/
def keyInSet (key : Option String) (set : List String) : Bool :=
  match key with
  | some k => set.contains k
  | none => false

/-- Source `DatasetSplitter._write(row, ...)`: route one row.  The two random
draws the body can make — `coin(this._evalProbability, this._rng)` and
`coin(0.5, this._rng)` — are passed in as `coinEval` and `coinTest`.
Returns the destination and the updated state. -/
def datasetSplitterWrite (cfg : SplitterConfig) (st : SplitterState) (row : Row)
    (coinEval coinTest : Bool) : RowDest × SplitterState :=
  if cfg.forDevices.length > 0 && !filterForDevices cfg.forDevices row.target_code then
    (.dropped, st)
  else
    let splitKey := cfg.splitStrategy row.id row.preprocessed row.target_code
    if row.flags.synthetic || row.flags.augmented then
      if keyInSet splitKey st.devtestset then (.dropped, st)
      else (.train, st)
    else
      if keyInSet splitKey st.devtestset then
        ((if cfg.hasTest && coinTest then .testOut else .evalOut), st)
      else if keyInSet splitKey st.trainset then
        (.train, st)
      else if coinEval then
        ((if cfg.hasTest && coinTest then .testOut else .evalOut),
         match splitKey with
         | some k => { st with devtestset := st.devtestset ++ [k] }
         | none => st)
      else
        (.train,
         match splitKey with
         | some k => { st with trainset := st.trainset ++ [k] }
         | none => st)

/-- The splitter state after a sequence of `_write`s (each paired with its
two coin draws). -/
def runSplitter (cfg : SplitterConfig) :
    SplitterState → List (Row × Bool × Bool) → SplitterState
  | st, [] => st
  | st, (row, cE, cT) :: rest =>
    runSplitter cfg (datasetSplitterWrite cfg st row cE cT).2 rest

/-- The initial splitter state: both key sets empty. -/
def initialSplitterState : SplitterState := ⟨[], []⟩

/-! ## Theorems -/

/-- Helper for C1: on a candidate list ending in a non-skippable
candidate, the skip loop settles on the first non-skippable candidate. -/
theorem selectCandidate_append_find : ∀ (l : List Candidate) (c : Candidate),
    isSkippableCandidate c = false →
    (l ++ [c]).find? (fun x => !isSkippableCandidate x) = some (selectCandidate (l ++ [c]))
  | [], c, hc => by
    simp only [List.nil_append]
    rw [List.find?_cons_of_pos _ (by simp [hc])]
    rfl
  | [a], c, hc => by
    simp only [List.cons_append, List.nil_append]
    by_cases ha : isSkippableCandidate a = true
    · rw [List.find?_cons_of_neg _ (by simp [ha])]
      rw [List.find?_cons_of_pos _ (by simp [hc])]
      simp [selectCandidate, ha]
    · rw [List.find?_cons_of_pos _ (by simp [ha])]
      simp [selectCandidate, ha]
  | a :: b :: t, c, hc => by
    have ih := selectCandidate_append_find (b :: t) c hc
    simp only [List.cons_append] at ih ⊢
    by_cases ha : isSkippableCandidate a = true
    · rw [List.find?_cons_of_neg _ (by simp [ha])]
      rw [ih]
      simp [selectCandidate, ha]
    · rw [List.find?_cons_of_pos _ (by simp [ha])]
      simp [selectCandidate, ha]

/-- **C1** For every natural-language input, `_analyzeCommand` builds a
non-empty candidate list (the synthetic `failed` candidate with score 0 is
appended unconditionally), and the candidate the skip loop selects is
never a parse-failure candidate with the `Infinity` sentinel score: the
loop stops at the first candidate that is not such, and the final
synthetic candidate is never such. -/
theorem claim_c1_analyze_candidate_invariant (raws : List RawCandidate) :
    buildCandidates raws ≠ [] ∧
    isSkippableCandidate (analyzedChoice raws) = false ∧
    (buildCandidates raws).find? (fun c => !isSkippableCandidate c) =
      some (analyzedChoice raws) := by
  have hsyn : isSkippableCandidate syntheticFailedCandidate = false := by decide
  have hfind := selectCandidate_append_find (raws.map mkCandidate) syntheticFailedCandidate hsyn
  refine ⟨by simp [buildCandidates], ?_, hfind⟩
  have := List.find?_some hfind
  simpa using this

/-- **C2** A transport error from the NLU call (code `EHOSTUNREACH` or
`ETIMEDOUT`, or a numeric 404/5xx code) makes `_analyzeCommand` reply
with the corresponding fixed apology and raise a `CancellationError`; the
loop's catch clause swallows the cancellation, clears the dialogue state
and keeps the loop running.  Any other error is rethrown and handled by
the loop's generic-apology branch, which also keeps the loop running. -/
theorem claim_c2_nlu_error_recovery (e : JsError) (st : LoopState)
    (hrun : st.stopped = false) :
    ((e.code = .str "EHOSTUNREACH" ∨ e.code = .str "ETIMEDOUT") →
      handleNluError e = Sum.inl (nluUnreachableApology, cancellationError)) ∧
    (∀ n : Int, e.code = .num n → (n = 404 ∨ n ≥ 500) →
      handleNluError e = Sum.inl (nluServerApology, cancellationError)) ∧
    (loopIteration st true (some cancellationError) =
      ({ st with icon := none, dialogueState := none, expecting := none }, [], true)) ∧
    (isTransportError e = false → handleNluError e = Sum.inr e) ∧
    (e.code ≠ .str "ECANCELLED" →
      loopIteration st true (some e) = (st, [genericUserApology], true))
    := by
  refine ⟨?_, ?_, ?_, ?_, ?_⟩
  · intro h
    simp [handleNluError, h]
  · intro n hn hval
    have h1 : ¬(e.code = .str "EHOSTUNREACH" ∨ e.code = .str "ETIMEDOUT") := by
      simp [hn]
    simp [handleNluError, h1, hn, hval]
  · simp [loopIteration, loopCatchError, cancellationError, hrun]
  · intro h
    cases hc : e.code with
    | str s =>
      have h1 : s ≠ "EHOSTUNREACH" ∧ s ≠ "ETIMEDOUT" := by
        rw [isTransportError, hc] at h
        simp at h
        exact ⟨h.1, h.2⟩
      simp [handleNluError, hc, h1.1, h1.2]
    | num n =>
      have h1 : ¬(n = 404 ∨ n ≥ 500) := by
        rw [isTransportError, hc] at h
        simp at h
        omega
      simp [handleNluError, hc, h1]
    | noCode =>
      simp [handleNluError, hc]
  · intro h
    have : e.code ≠ ErrCode.str "ECANCELLED" := h
    simp [loopIteration, loopCatchError, this, hrun]

/-- Witness for C2 at a concrete transport error and loop state. -/
theorem claim_c2_witness :
    handleNluError ⟨.str "EHOSTUNREACH"⟩ =
      Sum.inl (nluUnreachableApology, cancellationError) ∧
    loopIteration ⟨some ⟨"sys_recommend_one", "$dialogue", none⟩, some "icon", some .command, false⟩
        true (some cancellationError) =
      (⟨none, none, none, false⟩, [], true) := by
  have h := claim_c2_nlu_error_recovery ⟨.str "EHOSTUNREACH"⟩
    ⟨some ⟨"sys_recommend_one", "$dialogue", none⟩, some "icon", some .command, false⟩ rfl
  exact ⟨h.1 (Or.inl rfl), h.2.2.1⟩

/-- **C3** A `STOP` command makes `_handleUICommand` raise a
`CancellationError` without sending any reply; the loop's catch clause
resets the dialogue state, the icon and the expected category to null and
the loop proceeds to await the next queue item. -/
theorem claim_c3_stop_cancellation (st : LoopState) (welcome : List String)
    (hrun : st.stopped = false) :
    handleUICommand st welcome .STOP = ([], some cancellationError) ∧
    loopIteration st true (some cancellationError) =
      ({ st with icon := none, dialogueState := none, expecting := none }, [], true) := by
  refine ⟨rfl, ?_⟩
  simp [loopIteration, loopCatchError, cancellationError, hrun]

/-- Witness for C3 at a concrete loop state. -/
theorem claim_c3_witness :
    handleUICommand ⟨some ⟨"sys_slot_fill", "$dialogue", none⟩, none, some .yesNo, false⟩
        [] .STOP = ([], some cancellationError) ∧
    loopIteration ⟨some ⟨"sys_slot_fill", "$dialogue", none⟩, none, some .yesNo, false⟩
        true (some cancellationError) =
      (⟨none, none, none, false⟩, [], true) :=
  claim_c3_stop_cancellation ⟨some ⟨"sys_slot_fill", "$dialogue", none⟩, none, some .yesNo, false⟩ [] rfl

/-- **C4** When the policy's reply leaves the dialogue state with a
dialogue act in `TERMINAL_STATES` and a null expected category,
`_doAgentReply` sends the reply and then throws a `CancellationError`
(returning nothing), and the loop's catch clause returns the loop to its
idle state, still running. -/
theorem claim_c4_terminal_state_ends_loop (st : LoopState) (pr : PolicyResult)
    (hterm : pr.state.dialogueAct ∈ TERMINAL_STATES) (hexp : pr.expect = none)
    (hrun : st.stopped = false) :
    doAgentReply st (some pr) =
      { newLoop := { st with dialogueState := some pr.state, icon := pr.state.progIcon }
        replies := [pr.utterance]
        thrown := some cancellationError
        returned := none } ∧
    loopIteration { st with dialogueState := some pr.state, icon := pr.state.progIcon }
        true (some cancellationError) =
      ({ st with dialogueState := none, icon := none, expecting := none }, [], true) := by
  constructor
  · simp [doAgentReply, hexp, hterm]
  · simp [loopIteration, loopCatchError, cancellationError, hrun]

/-- Witness for C4 at a concrete terminal policy result. -/
theorem claim_c4_witness :
    doAgentReply ⟨none, none, none, false⟩
        (some ⟨⟨"sys_end", "$dialogue sys_end", none⟩, none, "Alright, let me know if I can help you with anything else!", 0⟩) =
      { newLoop := ⟨some ⟨"sys_end", "$dialogue sys_end", none⟩, none, none, false⟩
        replies := ["Alright, let me know if I can help you with anything else!"]
        thrown := some cancellationError
        returned := none } := by
  have h := claim_c4_terminal_state_ends_loop ⟨none, none, none, false⟩
    ⟨⟨"sys_end", "$dialogue sys_end", none⟩, none, "Alright, let me know if I can help you with anything else!", 0⟩
    (by simp [TERMINAL_STATES]) rfl rfl
  exact h.1

/-- **C5** `addFilter` and the unique-argument discipline: (1) a table
whose schema carries the `no_filter` mark can never be filtered again;
(2) on an already-filtered table, a new filter on a `unique` argument is
rejected; (3) an already-filtered table that contains a filter on a
`unique` argument rejects every new filter; (4)/(5) filtering a plain
invocation or join with a filter that `checkFilterUniqueness` classifies
as unique succeeds and sets `no_filter` on the resulting schema; (6) hence
every subsequent `addFilter` on a result whose schema is so marked
returns null. -/
theorem claim_c5_addFilter_unique_blocks :
    (∀ t f o fa, t.schema.no_filter = true → addFilter t f o fa = none) ∧
    (∀ inner ex s f o fa,
      checkFilterUniqueness (.filtered inner ex s) f = true →
      addFilter (.filtered inner ex s) f o fa = none) ∧
    (∀ inner ex s f o fa,
      hasUniqueFilter (.filtered inner ex s) = true →
      addFilter (.filtered inner ex s) f o fa = none) ∧
    (∀ kind channel s f o fa, s.no_filter = false →
      checkFilterUniqueness (.invocation kind channel s) f = true →
      addFilter (.invocation kind channel s) f o fa =
        some (.filtered (.invocation kind channel s) f { s with no_filter := true })) ∧
    (∀ lhs rhs s f o fa, s.no_filter = false →
      checkFilterUniqueness (.join lhs rhs s) f = true →
      addFilter (.join lhs rhs s) f o fa =
        some (.filtered (.join lhs rhs s) f { s with no_filter := true })) ∧
    (∀ t f o fa t', addFilter t f o fa = some t' → t'.schema.no_filter = true →
      ∀ f2 o2 fa2, addFilter t' f2 o2 fa2 = none) := by
  have hblock : ∀ t f o fa, t.schema.no_filter = true → addFilter t f o fa = none := by
    intro t f o fa h
    cases t <;> simp [addFilter, Table.schema] at h ⊢ <;> simp [h]
  refine ⟨hblock, ?_, ?_, ?_, ?_, ?_⟩
  · intro inner ex s f o fa h
    simp [addFilter, Table.schema, h]
  · intro inner ex s f o fa h
    simp [addFilter, Table.schema, h]
  · intro kind channel s f o fa hnf h
    simp [addFilter, Table.schema, hnf, h]
  · intro lhs rhs s f o fa hnf h
    simp [addFilter, Table.schema, hnf, h]
  · intro t f o fa t' _ h2 f2 o2 fa2
    exact hblock t' f2 o2 fa2 h2

/-- Witness for C5: a concrete unique-argument filter blocks refiltering. -/
theorem claim_c5_witness :
    addFilter
      (.invocation "com.example" "person"
        { args := [⟨"id", false, true, .base "Entity(com.example:person)"⟩] })
      (.atom "id" "==" ⟨none, .base "Entity(com.example:person)"⟩)
      ⟨⟨[], []⟩, ⟨false, false⟩⟩ false =
      some (.filtered
        (.invocation "com.example" "person"
          { args := [⟨"id", false, true, .base "Entity(com.example:person)"⟩] })
        (.atom "id" "==" ⟨none, .base "Entity(com.example:person)"⟩)
        { args := [⟨"id", false, true, .base "Entity(com.example:person)"⟩],
          no_filter := true }) ∧
    addFilter
      (.filtered
        (.invocation "com.example" "person"
          { args := [⟨"id", false, true, .base "Entity(com.example:person)"⟩] })
        (.atom "id" "==" ⟨none, .base "Entity(com.example:person)"⟩)
        { args := [⟨"id", false, true, .base "Entity(com.example:person)"⟩],
          no_filter := true })
      (.atom "name" "==" ⟨none, .base "String"⟩)
      ⟨⟨[], []⟩, ⟨false, false⟩⟩ false = none := by
  constructor
  · exact claim_c5_addFilter_unique_blocks.2.2.2.1 "com.example" "person"
      { args := [⟨"id", false, true, .base "Entity(com.example:person)"⟩] }
      (.atom "id" "==" ⟨none, .base "Entity(com.example:person)"⟩)
      ⟨⟨[], []⟩, ⟨false, false⟩⟩ false rfl (by rfl)
  · exact claim_c5_addFilter_unique_blocks.1 _
      (.atom "name" "==" ⟨none, .base "String"⟩)
      ⟨⟨[], []⟩, ⟨false, false⟩⟩ false rfl

/-- **C6** `makeAndFilter` and `makeOrFilter` return null whenever the
two values of the (length-2) value list carry the same `.name` (JS
`values[0].name === values[1].name`, with `undefined === undefined`
modelled by `none = none`), whenever the value list does not have exactly
two elements, and whenever `makeFilter` rejects either operand. -/
theorem claim_c6_and_or_same_name :
    (∀ o p op (v0 v1 : Value) negate, v0.name = v1.name →
      makeAndFilter o p op [v0, v1] negate = none ∧
      makeOrFilter o p op [v0, v1] negate = none) ∧
    (∀ o p op (values : List Value) negate, values.length ≠ 2 →
      makeAndFilter o p op values negate = none ∧
      makeOrFilter o p op values negate = none) ∧
    (∀ o p op (v0 v1 : Value) negate,
      makeFilter o p op v0 = none ∨ makeFilter o p op v1 = none →
      makeAndFilter o p op [v0, v1] negate = none) ∧
    (∀ o p op (v0 v1 : Value) negate,
      makeFilter o p op v0 negate = none ∨ makeFilter o p op v1 negate = none →
      makeOrFilter o p op [v0, v1] negate = none) := by
  refine ⟨?_, ?_, ?_, ?_⟩
  · intro o p op v0 v1 negate h
    constructor <;> simp [makeAndFilter, makeOrFilter, h]
  · intro o p op values negate h
    match values with
    | [] => constructor <;> rfl
    | [v0] => constructor <;> rfl
    | [v0, v1] => exact absurd (rfl : ([v0, v1] : List Value).length = 2) h
    | v0 :: v1 :: v2 :: rest => constructor <;> rfl
  · intro o p op v0 v1 negate h
    by_cases hn : v0.name = v1.name
    · simp [makeAndFilter, hn]
    · rcases h with h | h
      · cases h2 : makeFilter o p op v1 <;> simp [makeAndFilter, hn, h, h2]
      · cases h1 : makeFilter o p op v0 <;> simp [makeAndFilter, hn, h, h1]
  · intro o p op v0 v1 negate h
    by_cases hn : v0.name = v1.name
    · simp [makeOrFilter, hn]
    · rcases h with h | h
      · cases h2 : makeFilter o p op v1 negate <;> simp [makeOrFilter, hn, h, h2]
      · cases h1 : makeFilter o p op v0 negate <;> simp [makeOrFilter, hn, h, h1]

/-- Witness for C6: two references to the same argument name are
rejected, and a value whose type is not among the declared outputs is
rejected by `makeFilter` and hence by `makeAndFilter`. -/
theorem claim_c6_witness :
    makeAndFilter ⟨⟨["temperature+Number"], []⟩, ⟨false, false⟩⟩ ⟨"temperature"⟩ "=="
      [⟨some "temperature", .base "Number"⟩, ⟨some "temperature", .base "Number"⟩]
      false = none ∧
    makeOrFilter ⟨⟨["temperature+Number"], []⟩, ⟨false, false⟩⟩ ⟨"temperature"⟩ "=="
      [⟨some "temperature", .base "Number"⟩, ⟨some "temperature", .base "Number"⟩]
      false = none ∧
    makeAndFilter ⟨⟨["temperature+Number"], []⟩, ⟨false, false⟩⟩ ⟨"temperature"⟩ "=="
      [⟨none, .base "String"⟩, ⟨none, .base "Number"⟩] false = none := by
  have h1 := (claim_c6_and_or_same_name.1 ⟨⟨["temperature+Number"], []⟩, ⟨false, false⟩⟩
    ⟨"temperature"⟩ "==" ⟨some "temperature", .base "Number"⟩
    ⟨some "temperature", .base "Number"⟩ false rfl)
  have h2 := claim_c6_and_or_same_name.2.2.1 ⟨⟨["temperature+Number"], []⟩, ⟨false, false⟩⟩
    ⟨"temperature"⟩ "==" ⟨none, .base "String"⟩ ⟨none, .base "Number"⟩ false
    (Or.inl (by rfl))
  exact ⟨h1.1, h1.2, h2⟩

/-- Helper for C7: a list of length at most one has no duplicates. -/
theorem nodup_of_short : ∀ (l : List String), l.length ≤ 1 → l.Nodup
  | [], _ => List.nodup_nil
  | [a], _ => by simp
  | a :: b :: t, h => by simp only [List.length_cons] at h; omega

/-- Helper for C7: on a `≤`-sorted list, the adjacent-duplicate scan finds
a duplicate exactly when the list has one. -/
theorem hasAdjacentDup_sorted : ∀ (l : List String), l.Sorted (· ≤ ·) →
    (hasAdjacentDup l = true ↔ ¬ l.Nodup)
  | [], _ => by simp [hasAdjacentDup]
  | [a], _ => by simp [hasAdjacentDup]
  | a :: b :: t, hs => by
    rw [List.sorted_cons] at hs
    obtain ⟨hle, hs'⟩ := hs
    have ih := hasAdjacentDup_sorted (b :: t) hs'
    by_cases hab : a = b
    · subst hab
      simp [hasAdjacentDup, List.nodup_cons]
    · have hnotmem : a ∉ b :: t := by
        intro hmem
        rcases List.mem_cons.mp hmem with h | h
        · exact hab h
        · rw [List.sorted_cons] at hs'
          have hba : b ≤ a := hs'.1 a h
          have hab' : a ≤ b := hle b (List.mem_cons_self b t)
          exact hab (le_antisymm hab' hba)
      have habf : (a == b) = false := by simp [hab]
      rw [show hasAdjacentDup (a :: b :: t) = (a == b || hasAdjacentDup (b :: t)) from rfl,
        habf, Bool.false_or, ih]
      simp [List.nodup_cons, hnotmem]

/-- Helper for C7: `isSelfJoinStream` holds exactly when the collected
function-name list contains the same name twice. -/
theorem isSelfJoinStream_iff_not_nodup (s : TTStream) :
    isSelfJoinStream s = true ↔ ¬ (findFunctionNameStream s).Nodup := by
  have hdef : isSelfJoinStream s =
      if (findFunctionNameStream s).length > 1 then
        hasAdjacentDup ((findFunctionNameStream s).insertionSort (· ≤ ·))
      else false := rfl
  rw [hdef]
  by_cases hl : (findFunctionNameStream s).length > 1
  · simp only [hl, if_true]
    rw [hasAdjacentDup_sorted _ (List.sorted_insertionSort _ _)]
    rw [(List.perm_insertionSort (· ≤ ·) (findFunctionNameStream s)).nodup_iff]
  · simp only [hl, if_false]
    have hnd : (findFunctionNameStream s).Nodup := nodup_of_short _ (by omega)
    simp [hnd]

/-- **C7** `checkNotSelfJoinStream` returns null exactly when the list of
primitive function names collected from the stream (`kind:channel`
strings, timers contributing none) contains the same name twice;
otherwise it returns the stream unchanged. -/
theorem claim_c7_self_join_detection (s : TTStream) :
    (checkNotSelfJoinStream s = none ↔ ¬ (findFunctionNameStream s).Nodup) ∧
    ((findFunctionNameStream s).Nodup → checkNotSelfJoinStream s = some s) := by
  have hiff := isSelfJoinStream_iff_not_nodup s
  constructor
  · constructor
    · intro h
      by_cases hj : isSelfJoinStream s = true
      · exact hiff.mp hj
      · simp [checkNotSelfJoinStream, hj] at h
    · intro h
      simp [checkNotSelfJoinStream, hiff.mpr h]
  · intro h
    have hf : isSelfJoinStream s = false := by
      rcases Bool.eq_false_or_eq_true (isSelfJoinStream s) with ht | hf
      · exact absurd (hiff.mp ht) (not_not_intro h)
      · exact hf
    simp [checkNotSelfJoinStream, hf]

/-- Witness for C7: a monitor of a self-joined table is rejected; a timer
joined with a single invocation is returned unchanged. -/
theorem claim_c7_witness :
    checkNotSelfJoinStream
      (.monitor (.join
        (.invocation "com.twitter" "home_timeline" ⟨[], false, false, false⟩)
        (.invocation "com.twitter" "home_timeline" ⟨[], false, false, false⟩)
        ⟨[], false, false, false⟩)) = none ∧
    checkNotSelfJoinStream
      (.join .timer (.invocation "com.twitter" "home_timeline" ⟨[], false, false, false⟩)) =
      some (.join .timer (.invocation "com.twitter" "home_timeline" ⟨[], false, false, false⟩)) := by
  constructor
  · exact (claim_c7_self_join_detection _).1.mpr (by decide)
  · exact (claim_c7_self_join_detection _).2 (by decide)

/-- Step equation of the right-hand merge loop. -/
theorem mergeRhsArgs_cons (p : String) (acc : List String × List ArgumentDef)
    (a : ArgumentDef) (t : List ArgumentDef) :
    mergeRhsArgs p acc (a :: t) =
      if a.name = p then mergeRhsArgs p acc t
      else mergeRhsArgs p (acc.1 ++ [a.name], acc.2 ++ [a]) t := by
  cases acc
  rfl

/-- Step equation of the left-hand merge loop. -/
theorem mergeLhsArgs_cons (acc : List String × List ArgumentDef)
    (a : ArgumentDef) (t : List ArgumentDef) :
    mergeLhsArgs acc (a :: t) =
      if acc.1.contains a.name then mergeLhsArgs acc t
      else mergeLhsArgs (acc.1 ++ [a.name], acc.2 ++ [a]) t := by
  cases acc
  rfl

/-- Helper for C8: the right-hand loop of `mergeSchemas` appends exactly
the right-hand arguments not named by the join parameter. -/
theorem mergeRhsArgs_snd (p : String) : ∀ (l : List ArgumentDef)
    (ns : List String) (as : List ArgumentDef),
    (mergeRhsArgs p (ns, as) l).2 = as ++ l.filter (fun a => !(a.name == p))
  | [], ns, as => by simp [mergeRhsArgs]
  | a :: t, ns, as => by
    rw [mergeRhsArgs_cons]
    by_cases hap : a.name = p
    · rw [if_pos hap, mergeRhsArgs_snd p t ns as, List.filter_cons,
        if_neg (by simp [hap])]
    · rw [if_neg hap]
      rw [show ((ns, as).1 ++ [a.name], (ns, as).2 ++ [a]) =
        ((ns ++ [a.name] : List String), as ++ [a]) from rfl]
      rw [mergeRhsArgs_snd p t (ns ++ [a.name]) (as ++ [a]), List.filter_cons,
        if_pos (by simp [hap])]
      simp

/-- Helper for C8: the names recorded by the right-hand loop are the
initial ones plus the names of the kept right-hand arguments. -/
theorem mergeRhsArgs_fst (p : String) : ∀ (l : List ArgumentDef)
    (ns : List String) (as : List ArgumentDef),
    (mergeRhsArgs p (ns, as) l).1 = ns ++ (l.filter (fun a => !(a.name == p))).map (·.name)
  | [], ns, as => by simp [mergeRhsArgs]
  | a :: t, ns, as => by
    rw [mergeRhsArgs_cons]
    by_cases hap : a.name = p
    · rw [if_pos hap, mergeRhsArgs_fst p t ns as, List.filter_cons,
        if_neg (by simp [hap])]
    · rw [if_neg hap]
      rw [show ((ns, as).1 ++ [a.name], (ns, as).2 ++ [a]) =
        ((ns ++ [a.name] : List String), as ++ [a]) from rfl]
      rw [mergeRhsArgs_fst p t (ns ++ [a.name]) (as ++ [a]), List.filter_cons,
        if_pos (by simp [hap])]
      simp

/-- Helper for C8: the left-hand loop only appends to the argument list. -/
theorem mergeLhsArgs_prefix : ∀ (l : List ArgumentDef)
    (acc : List String × List ArgumentDef),
    ∃ ex, (mergeLhsArgs acc l).2 = acc.2 ++ ex
  | [], acc => ⟨[], by simp [mergeLhsArgs]⟩
  | a :: t, acc => by
    rw [mergeLhsArgs_cons]
    by_cases hc : acc.1.contains a.name = true
    · rw [if_pos hc]
      exact mergeLhsArgs_prefix t acc
    · rw [if_neg hc]
      obtain ⟨ex, hex⟩ := mergeLhsArgs_prefix t (acc.1 ++ [a.name], acc.2 ++ [a])
      exact ⟨[a] ++ ex, by rw [hex]; simp⟩

/-- Helper for C8: an argument already found in the accumulator is still
the one found after the left-hand loop runs. -/
theorem mergeLhsArgs_find?_found (q : ArgumentDef → Bool) (x : ArgumentDef)
    (l : List ArgumentDef) (acc : List String × List ArgumentDef)
    (h : acc.2.find? q = some x) :
    ((mergeLhsArgs acc l).2).find? q = some x := by
  obtain ⟨ex, hex⟩ := mergeLhsArgs_prefix l acc
  rw [hex, List.find?_append, h]
  rfl

/-- Helper for C8: as long as the join-parameter name is neither among the
recorded names nor among the accumulated arguments, the first argument the
merged list holds under that name is the left-hand list's first argument
of that name. -/
theorem mergeLhsArgs_find?_passign (p : String) : ∀ (l : List ArgumentDef)
    (ns : List String) (as : List ArgumentDef),
    ns.contains p = false → (∀ a ∈ as, a.name ≠ p) →
    ((mergeLhsArgs (ns, as) l).2).find? (fun a => a.name == p) =
      l.find? (fun a => a.name == p)
  | [], ns, as, _, has => by
    rw [show mergeLhsArgs (ns, as) [] = (ns, as) from rfl]
    exact List.find?_eq_none.mpr (fun a ha => by simp [has a ha])
  | a :: t, ns, as, hns, has => by
    rw [mergeLhsArgs_cons]
    by_cases hap : a.name = p
    · have hcf : ¬((ns, as).1.contains a.name = true) := by
        rw [show (ns, as).1 = ns from rfl, hap, hns]
        simp
      rw [if_neg hcf]
      obtain ⟨ex, hex⟩ := mergeLhsArgs_prefix t ((ns, as).1 ++ [a.name], (ns, as).2 ++ [a])
      rw [hex]
      have h1 : (as ++ [a]).find? (fun x => x.name == p) = some a := by
        rw [List.find?_append]
        rw [List.find?_eq_none.mpr (fun x hx => by simp [has x hx])]
        simp [List.find?, hap]
      rw [show ((ns, as).1 ++ [a.name], (ns, as).2 ++ [a]).2 = as ++ [a] from rfl]
      rw [List.find?_append, h1]
      rw [List.find?_cons_of_pos _ (by simp [hap])]
      rfl
    · by_cases hc : (ns, as).1.contains a.name = true
      · rw [if_pos hc]
        rw [mergeLhsArgs_find?_passign p t ns as hns has]
        rw [List.find?_cons_of_neg _ (by simp [hap])]
      · rw [if_neg hc]
        have hns' : (ns ++ [a.name]).contains p = false := by
          rw [List.contains_eq_any_beq, List.any_eq_false]
          intro x hx
          rcases List.mem_append.mp hx with h | h
          · have := hns
            rw [List.contains_eq_any_beq, List.any_eq_false] at this
            exact this x h
          · rw [List.mem_singleton.mp h]
            simp only [beq_iff_eq]
            exact fun hh => hap hh.symm
        have has' : ∀ x ∈ as ++ [a], x.name ≠ p := by
          intro x hx
          rcases List.mem_append.mp hx with h | h
          · exact has x h
          · rw [List.mem_singleton.mp h]
            exact hap
        rw [show ((ns, as).1 ++ [a.name], (ns, as).2 ++ [a]) =
          ((ns ++ [a.name] : List String), as ++ [a]) from rfl]
        rw [mergeLhsArgs_find?_passign p t (ns ++ [a.name]) (as ++ [a]) hns' has']
        rw [List.find?_cons_of_neg _ (by simp [hap])]

/-- Helper for C8: filtering out the join-parameter arguments does not
change which argument is first found under a different name. -/
theorem find?_filter_ne (p n : String) (hnp : n ≠ p) : ∀ (l : List ArgumentDef),
    (l.filter (fun a => !(a.name == p))).find? (fun a => a.name == n) =
      l.find? (fun a => a.name == n)
  | [] => rfl
  | a :: t => by
    by_cases hap : a.name = p
    · have hq : ¬((a.name == n) = true) := by
        simp only [beq_iff_eq]
        intro h
        rw [hap] at h
        exact hnp h.symm
      rw [List.filter_cons, if_neg (by simp [hap])]
      rw [find?_filter_ne p n hnp t]
      rw [List.find?_cons_of_neg _ (by simpa using hq)]
    · rw [List.filter_cons, if_pos (by simp [hap])]
      by_cases han : a.name = n
      · rw [List.find?_cons_of_pos _ (by simp [han]),
          List.find?_cons_of_pos _ (by simp [han])]
      · rw [List.find?_cons_of_neg _ (by simp [han]),
          List.find?_cons_of_neg _ (by simp [han])]
        exact find?_filter_ne p n hnp t

/-- Counterexample for **C8** as stated: when the passed-through join
argument's name occurs in both schemas, the merged schema contains the
left-hand schema's argument under that name, not the right-hand one —
the right-hand side does not win that collision. -/
theorem claim_c8_counterexample :
    (ExpressionSignature.getArgument
      ⟨[⟨"x", true, false, .base "String"⟩], false, false, false⟩ "x" ≠ none) ∧
    (ExpressionSignature.getArgument
      ⟨[⟨"x", false, false, .base "Number"⟩], false, false, false⟩ "x" ≠ none) ∧
    (mergeSchemas "query" ⟨[⟨"x", true, false, .base "String"⟩], false, false, false⟩
        ⟨[⟨"x", false, false, .base "Number"⟩], false, false, false⟩ "x").getArgument "x" ≠
      ExpressionSignature.getArgument
        ⟨[⟨"x", false, false, .base "Number"⟩], false, false, false⟩ "x" := by
  refine ⟨?_, ?_, ?_⟩ <;> decide

/-- **C8 (amended)** In the schema produced by `mergeSchemas`, every
argument name other than the passed-through join argument that the
right-hand schema declares resolves to the right-hand schema's argument
(the right-hand side wins those collisions); the right-hand join argument
itself is dropped, and the merged schema's argument under the join name is
exactly the left-hand schema's argument of that name (so it is present iff
the left-hand schema re-introduces it). -/
theorem claim_c8_mergeSchemas_amended (ft : String) (lhs rhs : ExpressionSignature)
    (p n : String) (hnp : n ≠ p) (hr : rhs.getArgument n ≠ none) :
    (mergeSchemas ft lhs rhs p).getArgument n = rhs.getArgument n ∧
    (mergeSchemas ft lhs rhs p).getArgument p = lhs.getArgument p := by
  have hsnd := mergeRhsArgs_snd p rhs.args [] []
  have hfst := mergeRhsArgs_fst p rhs.args [] []
  constructor
  · obtain ⟨x, hx⟩ := Option.ne_none_iff_exists'.mp hr
    have hacc : (mergeRhsArgs p ([], []) rhs.args).2.find? (fun a => a.name == n) = some x := by
      rw [hsnd]
      simp only [List.nil_append]
      rw [find?_filter_ne p n hnp]
      exact hx
    show ((mergeLhsArgs (mergeRhsArgs p ([], []) rhs.args) lhs.args).2).find?
        (fun a => a.name == n) = rhs.getArgument n
    rw [mergeLhsArgs_find?_found _ x lhs.args _ hacc, hx]
  · have hnames : (mergeRhsArgs p ([], []) rhs.args).1.contains p = false := by
      rw [hfst]
      simp only [List.nil_append]
      rw [List.contains_eq_any_beq, List.any_eq_false]
      intro x hx
      obtain ⟨a, ha, hae⟩ := List.mem_map.mp hx
      have hnot := List.of_mem_filter ha
      simp only [Bool.not_eq_true', beq_eq_false_iff_ne, ne_eq] at hnot
      rw [← hae]
      simp only [beq_iff_eq]
      exact fun h => hnot h.symm
    have hargs : ∀ a ∈ (mergeRhsArgs p ([], []) rhs.args).2, a.name ≠ p := by
      rw [hsnd]
      simp only [List.nil_append]
      intro a ha
      have hnot := List.of_mem_filter ha
      simpa using hnot
    show ((mergeLhsArgs (mergeRhsArgs p ([], []) rhs.args) lhs.args).2).find?
        (fun a => a.name == p) = lhs.getArgument p
    rw [show mergeRhsArgs p ([], []) rhs.args =
        ((mergeRhsArgs p ([], []) rhs.args).1, (mergeRhsArgs p ([], []) rhs.args).2) from rfl]
    rw [mergeLhsArgs_find?_passign p lhs.args _ _ hnames hargs]
    rfl

/-- Witness for the amended C8 at concrete schemas: the right-hand
argument wins an ordinary collision, and the join argument comes from the
left-hand schema. -/
theorem claim_c8_witness :
    (mergeSchemas "query"
      ⟨[⟨"author", false, false, .base "String"⟩, ⟨"link", true, false, .base "URL"⟩],
        false, false, false⟩
      ⟨[⟨"author", false, false, .base "Entity(tt:username)"⟩], false, false, false⟩
      "link").getArgument "author" =
      some ⟨"author", false, false, .base "Entity(tt:username)"⟩ ∧
    (mergeSchemas "query"
      ⟨[⟨"author", false, false, .base "String"⟩, ⟨"link", true, false, .base "URL"⟩],
        false, false, false⟩
      ⟨[⟨"author", false, false, .base "Entity(tt:username)"⟩], false, false, false⟩
      "link").getArgument "link" =
      some ⟨"link", true, false, .base "URL"⟩ := by
  have h := claim_c8_mergeSchemas_amended "query"
    ⟨[⟨"author", false, false, .base "String"⟩, ⟨"link", true, false, .base "URL"⟩],
      false, false, false⟩
    ⟨[⟨"author", false, false, .base "Entity(tt:username)"⟩], false, false, false⟩
    "link" "author" (by decide) (by decide)
  exact ⟨by rw [h.1]; rfl, by rw [h.2]; rfl⟩

/-- **C9** When the accepted name does not equal the id of any result in
the proposed list, `positiveListProposalReply` and
`listProposalLearnMoreReply` return `false` and build no new state —
whatever the current table, the proposed action and the external helper
functions are (so no filter is added and no action parameter is bound). -/
theorem claim_c9_unknown_name_rejected {State Action : Type}
    (isSameFunction : Action → Action → Bool)
    (findChainParam : LPResult → Action → Option String)
    (addActionParam : String → Action → String → Value → String → State)
    (queryRefinement : Table → BooleanExpression →
      (BooleanExpression → BooleanExpression → BooleanExpression) → Option Table)
    (addQuery : String → Table → String → State)
    (ctx : ListProposalCtx Action) (name : Value)
    (acceptedAction : Option Action) (mustHaveAction : Bool)
    (h : ∀ r ∈ ctx.results, r.id ≠ name) :
    positiveListProposalReply isSameFunction findChainParam addActionParam
      queryRefinement addQuery ctx name acceptedAction mustHaveAction = .rfalse ∧
    @listProposalLearnMoreReply State Action queryRefinement addQuery ctx name =
      .rfalse := by
  have hany : (ctx.results.any fun r => r.id == name) = false := by
    rw [List.any_eq_false]
    intro r hr
    simp [h r hr]
  constructor
  · rw [positiveListProposalReply.eq_def, if_pos (by rw [hany]; rfl)]
  · rw [listProposalLearnMoreReply.eq_def, if_pos (by rw [hany]; rfl)]

/-- Witness for C9: a concrete context whose two results do not contain
the accepted name. -/
theorem claim_c9_witness :
    @positiveListProposalReply Unit Unit
      (fun _ _ => true) (fun _ _ => none) (fun _ _ _ _ _ => ())
      (fun _ _ _ => none) (fun _ _ _ => ())
      ⟨[⟨⟨some "the_cheesecake_factory", .base "Entity(com.yelp:restaurant)"⟩⟩,
        ⟨⟨some "olive_garden", .base "Entity(com.yelp:restaurant)"⟩⟩], none,
        .invocation "com.yelp" "restaurant" ⟨[], false, false, false⟩⟩
      ⟨some "mcdonalds", .base "Entity(com.yelp:restaurant)"⟩ none false = .rfalse ∧
    @listProposalLearnMoreReply Unit Unit
      (fun _ _ _ => none) (fun _ _ _ => ())
      ⟨[⟨⟨some "the_cheesecake_factory", .base "Entity(com.yelp:restaurant)"⟩⟩,
        ⟨⟨some "olive_garden", .base "Entity(com.yelp:restaurant)"⟩⟩], none,
        .invocation "com.yelp" "restaurant" ⟨[], false, false, false⟩⟩
      ⟨some "mcdonalds", .base "Entity(com.yelp:restaurant)"⟩ = .rfalse :=
  claim_c9_unknown_name_rejected
    (fun _ _ => true) (fun _ _ => none) (fun _ _ _ _ _ => ())
    (fun _ _ _ => none) (fun _ _ _ => ())
    ⟨[⟨⟨some "the_cheesecake_factory", .base "Entity(com.yelp:restaurant)"⟩⟩,
      ⟨⟨some "olive_garden", .base "Entity(com.yelp:restaurant)"⟩⟩], none,
      .invocation "com.yelp" "restaurant" ⟨[], false, false, false⟩⟩
    ⟨some "mcdonalds", .base "Entity(com.yelp:restaurant)"⟩ none false
    (by intro r hr; fin_cases hr <;> decide)

/-- Helper: membership gives `contains`. -/
theorem contains_of_mem {l : List String} {a : String} (h : a ∈ l) :
    l.contains a = true := by
  rw [List.contains_eq_any_beq, List.any_eq_true]
  exact ⟨a, h, by simp⟩

/-- Helper: non-membership gives `contains = false`. -/
theorem contains_false_of_not_mem {l : List String} {a : String} (h : a ∉ l) :
    l.contains a = false := by
  rw [List.contains_eq_any_beq, List.any_eq_false]
  intro x hx
  simp only [beq_iff_eq]
  intro he
  exact h (he ▸ hx)

/-- Helper: `contains = false` gives non-membership. -/
theorem not_mem_of_contains_false {l : List String} {a : String}
    (h : l.contains a = false) : a ∉ l := by
  intro hm
  rw [contains_of_mem hm] at h
  simp at h

/-- Helper for C10: one `_write` either leaves the splitter state alone or
appends the row's split key — a key recorded in neither set — to exactly
one of the two sets. -/
theorem datasetSplitterWrite_state (cfg : SplitterConfig) (st : SplitterState)
    (row : Row) (cE cT : Bool) :
    (datasetSplitterWrite cfg st row cE cT).2 = st ∨
    (∃ k, cfg.splitStrategy row.id row.preprocessed row.target_code = some k ∧
      st.devtestset.contains k = false ∧ st.trainset.contains k = false ∧
      ((datasetSplitterWrite cfg st row cE cT).2 = ⟨st.devtestset ++ [k], st.trainset⟩ ∨
       (datasetSplitterWrite cfg st row cE cT).2 = ⟨st.devtestset, st.trainset ++ [k]⟩)) := by
  by_cases hdev : (cfg.forDevices.length > 0 && !filterForDevices cfg.forDevices row.target_code) = true
  · left
    simp [datasetSplitterWrite, hdev]
  · by_cases hsyn : (row.flags.synthetic || row.flags.augmented) = true
    · left
      by_cases hkd : keyInSet (cfg.splitStrategy row.id row.preprocessed row.target_code) st.devtestset = true
      · simp [datasetSplitterWrite, hdev, hsyn, hkd]
      · simp [datasetSplitterWrite, hdev, hsyn, hkd]
    · by_cases hkd : keyInSet (cfg.splitStrategy row.id row.preprocessed row.target_code) st.devtestset = true
      · left
        simp [datasetSplitterWrite, hdev, hsyn, hkd]
      · by_cases hkt : keyInSet (cfg.splitStrategy row.id row.preprocessed row.target_code) st.trainset = true
        · left
          simp [datasetSplitterWrite, hdev, hsyn, hkd, hkt]
        · cases hsk : cfg.splitStrategy row.id row.preprocessed row.target_code with
          | none =>
            left
            cases cE <;> simp [datasetSplitterWrite, hdev, hsyn, hkd, hkt, hsk, keyInSet]
          | some k =>
            right
            rw [hsk] at hkd hkt
            have hkd2 : st.devtestset.contains k = false := by simpa [keyInSet] using hkd
            have hkt2 : st.trainset.contains k = false := by simpa [keyInSet] using hkt
            have hkdm : k ∉ st.devtestset := not_mem_of_contains_false hkd2
            have hktm : k ∉ st.trainset := not_mem_of_contains_false hkt2
            refine ⟨k, rfl, hkd2, hkt2, ?_⟩
            cases cE
            · right
              simp [datasetSplitterWrite, hdev, hsyn, hsk, keyInSet, hkdm, hktm]
            · left
              simp [datasetSplitterWrite, hdev, hsyn, hsk, keyInSet, hkdm, hktm]

/-- Helper for C10: running the splitter preserves disjointness of the two
recorded key sets. -/
theorem runSplitter_disjoint (cfg : SplitterConfig) :
    ∀ (items : List (Row × Bool × Bool)) (st : SplitterState),
    (∀ k, ¬(k ∈ st.devtestset ∧ k ∈ st.trainset)) →
    ∀ k, ¬(k ∈ (runSplitter cfg st items).devtestset ∧
           k ∈ (runSplitter cfg st items).trainset)
  | [], st, h => h
  | (row, cE, cT) :: rest, st, h => by
    rw [show runSplitter cfg st ((row, cE, cT) :: rest) =
        runSplitter cfg (datasetSplitterWrite cfg st row cE cT).2 rest from rfl]
    refine runSplitter_disjoint cfg rest _ ?_
    rcases datasetSplitterWrite_state cfg st row cE cT with heq | ⟨k', _, hd, ht, heq | heq⟩
    · rw [heq]; exact h
    · rw [heq]
      rintro k ⟨h1, h2⟩
      rcases List.mem_append.mp h1 with hm | hm
      · exact h k ⟨hm, h2⟩
      · rw [List.mem_singleton.mp hm] at h2
        exact not_mem_of_contains_false ht h2
    · rw [heq]
      rintro k ⟨h1, h2⟩
      rcases List.mem_append.mp h2 with hm | hm
      · exact h k ⟨h1, hm⟩
      · rw [List.mem_singleton.mp hm] at h1
        exact not_mem_of_contains_false hd h1

/-- **C10** The train output and the eval/test outputs of
`DatasetSplitter` are disjoint by split key: a row whose key is recorded
in the dev/test set is routed to eval or test (or dropped when flagged
synthetic/augmented), never to train; a non-synthetic row whose key is
recorded in the train set (keys are never in both sets on runs from the
initial state, and the sets only grow) is routed to train. -/
theorem claim_c10_splitter_disjointness :
    (∀ cfg st row cE cT k,
      cfg.splitStrategy row.id row.preprocessed row.target_code = some k →
      k ∈ st.devtestset →
      (datasetSplitterWrite cfg st row cE cT).1 ≠ .train ∧
      ((cfg.forDevices.length > 0 && !filterForDevices cfg.forDevices row.target_code) = false →
        ((row.flags.synthetic || row.flags.augmented) = true →
          (datasetSplitterWrite cfg st row cE cT).1 = .dropped) ∧
        ((row.flags.synthetic || row.flags.augmented) = false →
          (datasetSplitterWrite cfg st row cE cT).1 = .evalOut ∨
          (datasetSplitterWrite cfg st row cE cT).1 = .testOut))) ∧
    (∀ cfg st row cE cT k,
      cfg.splitStrategy row.id row.preprocessed row.target_code = some k →
      k ∈ st.trainset → k ∉ st.devtestset →
      (row.flags.synthetic || row.flags.augmented) = false →
      (cfg.forDevices.length > 0 && !filterForDevices cfg.forDevices row.target_code) = false →
      (datasetSplitterWrite cfg st row cE cT).1 = .train) ∧
    (∀ cfg st row cE cT k,
      (k ∈ st.devtestset → k ∈ (datasetSplitterWrite cfg st row cE cT).2.devtestset) ∧
      (k ∈ st.trainset → k ∈ (datasetSplitterWrite cfg st row cE cT).2.trainset)) ∧
    (∀ cfg items k,
      ¬(k ∈ (runSplitter cfg initialSplitterState items).devtestset ∧
        k ∈ (runSplitter cfg initialSplitterState items).trainset)) := by
  refine ⟨?_, ?_, ?_, ?_⟩
  · intro cfg st row cE cT k hkey hmem
    have hkd : keyInSet (cfg.splitStrategy row.id row.preprocessed row.target_code)
        st.devtestset = true := by
      rw [hkey]
      simpa [keyInSet] using contains_of_mem hmem
    constructor
    · by_cases hdev : (cfg.forDevices.length > 0 && !filterForDevices cfg.forDevices row.target_code) = true
      · simp [datasetSplitterWrite, hdev]
      · by_cases hsyn : (row.flags.synthetic || row.flags.augmented) = true
        · simp [datasetSplitterWrite, hdev, hsyn, hkd]
        · by_cases hc : cfg.hasTest = true ∧ cT = true <;>
            simp [datasetSplitterWrite, hdev, hsyn, hkd, hc]
    · intro hdev
      constructor
      · intro hsyn
        simp [datasetSplitterWrite, hdev, hsyn, hkd]
      · intro hsyn
        by_cases hc : cfg.hasTest = true ∧ cT = true <;>
          simp [datasetSplitterWrite, hdev, hsyn, hkd, hc]
  · intro cfg st row cE cT k hkey hmemT hnotD hsyn hdev
    have hkd : keyInSet (cfg.splitStrategy row.id row.preprocessed row.target_code)
        st.devtestset = false := by
      rw [hkey]
      simpa [keyInSet] using contains_false_of_not_mem hnotD
    have hkt : keyInSet (cfg.splitStrategy row.id row.preprocessed row.target_code)
        st.trainset = true := by
      rw [hkey]
      simpa [keyInSet] using contains_of_mem hmemT
    simp [datasetSplitterWrite, hdev, hsyn, hkd, hkt]
  · intro cfg st row cE cT k
    rcases datasetSplitterWrite_state cfg st row cE cT with heq | ⟨k', _, _, _, heq | heq⟩ <;>
      rw [heq] <;> constructor <;> intro hm <;> simp [hm]
  · intro cfg items k
    exact runSplitter_disjoint cfg items initialSplitterState (by simp [initialSplitterState]) k

/-- Witness for C10: a concrete run in which the first row's key lands in
the dev set and a later synthetic row with the same key is dropped while a
later natural row with the same key goes to eval. -/
theorem claim_c10_witness :
    (datasetSplitterWrite
      ⟨[], false, fun i _ _ => some i⟩
      ⟨["get weather"], []⟩
      ⟨"get weather", "get the weather", "now => @weather.current => notify", ⟨true, false⟩⟩
      false false).1 = .dropped ∧
    (datasetSplitterWrite
      ⟨[], false, fun i _ _ => some i⟩
      ⟨["get weather"], []⟩
      ⟨"get weather", "get the weather", "now => @weather.current => notify", ⟨false, false⟩⟩
      false false).1 = .evalOut ∧
    (datasetSplitterWrite
      ⟨[], false, fun i _ _ => some i⟩
      ⟨[], ["get weather"]⟩
      ⟨"get weather", "get the weather", "now => @weather.current => notify", ⟨false, false⟩⟩
      false false).1 = .train := by
  have h1 := (claim_c10_splitter_disjointness.1
    ⟨[], false, fun i _ _ => some i⟩ ⟨["get weather"], []⟩
    ⟨"get weather", "get the weather", "now => @weather.current => notify", ⟨true, false⟩⟩
    false false "get weather" rfl (by simp)).2 rfl
  have h2 := (claim_c10_splitter_disjointness.1
    ⟨[], false, fun i _ _ => some i⟩ ⟨["get weather"], []⟩
    ⟨"get weather", "get the weather", "now => @weather.current => notify", ⟨false, false⟩⟩
    false false "get weather" rfl (by simp)).2 rfl
  have h3 := claim_c10_splitter_disjointness.2.1
    ⟨[], false, fun i _ _ => some i⟩ ⟨[], ["get weather"]⟩
    ⟨"get weather", "get the weather", "now => @weather.current => notify", ⟨false, false⟩⟩
    false false "get weather" rfl (by simp) (by simp) rfl rfl
  refine ⟨h1.1 rfl, ?_, h3⟩
  rcases h2.2 rfl with h | h
  · exact h
  · exact absurd h (by decide)
